import Mathlib

/-!
Shallow embedding of `steam_scanner.py` (class `SteamGameScanner`).

The fetcher (`get_owned_games`, `get_player_summary`) is modelled as a pure
function of a *trace*: the outcome the HTTP layer would produce at each
attempt index.  The reporter (`minutes_to_hours`,
`generate_markdown_report`) is modelled as pure functions on the fetched
records; the markdown side effects are abstracted into a `Report` structure
holding exactly the data the emitted lines are built from, and writing the
output file is modelled by returning `some` report (early return = `none`).
Python floats are modelled by exact rationals.
-/

/-- A game record as returned by the owned-games endpoint.  Every field is
optional, mirroring the Python `dict.get(...)` accesses with defaults. -/
structure Game where
  appid : Option Int
  name : Option String
  playtime_forever : Option Int
deriving Repr, DecidableEq

/-- `game.get('playtime_forever', 0)`, the playtime key with default 0. -/
def Game.playtime (g : Game) : Int :=
  g.playtime_forever.getD 0

/-- A player summary record (`data['response']['players'][0]`). -/
structure Player where
  personaname : Option String
deriving Repr, DecidableEq

/-- Python `int(q)`: truncation toward zero. -/
def pyInt (q : ℚ) : ℤ :=
  q.num.tdiv q.den

/-- Rounding to the nearest integer with ties to even, the rounding used by
Python float formatting with `:.1f` (applied to `10 * hours`), modelled over
exact rationals. -/
def roundHalfEven (q : ℚ) : ℤ :=
  if Int.fract q < 1 / 2 then ⌊q⌋
  else if 1 / 2 < Int.fract q then ⌊q⌋ + 1
  else if ⌊q⌋ % 2 = 0 then ⌊q⌋ else ⌊q⌋ + 1

/-- The four shapes of string produced by `minutes_to_hours`: the `"0 小時"`
sentinel, a minutes label, a whole-hours label, and an hours label with one
decimal digit (stored as the number of tenths of an hour). -/
inductive TimeDisplay where
  | zeroHours
  | minutesLabel (m : ℚ)
  | wholeHours (h : ℤ)
  | decimalHours (tenths : ℤ)
deriving Repr, DecidableEq

/-- `minutes_to_hours` from the source: `0` maps to the sentinel, otherwise
`hours = minutes / 60`; `hours < 1` yields a minutes label,
`hours == int(hours)` a whole-hours label, and anything else the value
formatted with one decimal digit (`f"{hours:.1f}"`). -/
def minutes_to_hours (minutes : ℚ) : TimeDisplay :=
  if minutes = 0 then TimeDisplay.zeroHours
  else
    let hours : ℚ := minutes / 60
    if hours < 1 then TimeDisplay.minutesLabel minutes
    else if hours = (pyInt hours : ℚ) then TimeDisplay.wholeHours (pyInt hours)
    else TimeDisplay.decimalHours (roundHalfEven (10 * hours))

/-- `games.sort(key=lambda x: x.get('playtime_forever', 0), reverse=True)`:
Python's stable sort, descending on playtime. -/
def sortGames (games : List Game) : List Game :=
  games.mergeSort (fun a b => decide (b.playtime ≤ a.playtime))

/-- The data the markdown report lines are built from. -/
structure Report where
  playerName : Option String
  totalGames : Nat
  totalMinutes : Int
  avg : Option ℚ
  playedGames : List Game
  unplayedGames : List Game
  topSection : Option (List Game)
deriving Repr, DecidableEq

/-- The report-building part of `generate_markdown_report`, after both
fetches: sort descending by playtime, sum the playtimes, partition into
played/unplayed, attach the average line only when some game was played, and
attach the top-10 section only when the list is nonempty and its top entry
has positive playtime; within the section only positive-playtime entries are
printed. -/
def buildReport (games : List Game) (player : Option Player) : Report :=
  let sorted := sortGames games
  let totalMinutes := (sorted.map Game.playtime).sum
  let played := sorted.filter (fun g => decide (0 < g.playtime))
  let unplayed := sorted.filter (fun g => decide (g.playtime = 0))
  let top := sorted.take 10
  { playerName := player.map (fun p => p.personaname.getD "Unknown")
    totalGames := sorted.length
    totalMinutes := totalMinutes
    avg :=
      if played.length = 0 then none
      else some ((totalMinutes : ℚ) / (played.length : ℚ))
    playedGames := played
    unplayedGames := unplayed
    topSection :=
      match top with
      | [] => none
      | g :: _ =>
        if 0 < g.playtime then some (top.filter (fun h => decide (0 < h.playtime)))
        else none }

/-- `generate_markdown_report` as a function of the two fetch results.
Python's `if not games: ... return` fires when the owned-games fetch produced
`None` or the empty list, and then no file is written (`none`); otherwise the
report is built and written (`some`). -/
def generate_markdown_report (gamesFetch : Option (List Game))
    (player : Option Player) : Option Report :=
  match gamesFetch with
  | none => none
  | some [] => none
  | some gs => some (buildReport gs player)

/-- The observable outcome of a single HTTP attempt: an HTTP 429 response, a
`requests.exceptions.RequestException` (timeout, connection error, or an
error status raised by `raise_for_status`), or a successful response whose
parsed body either contains the expected nested payload (`some`) or lacks it
(`none`). -/
inductive Outcome (β : Type) where
  | rate429
  | netError
  | ok (body : Option β)
deriving Repr, DecidableEq

/-- The shared retry loop of both fetchers, driven by the list of remaining
attempt indices (`range(3)` at top level) and the trace of outcomes.  A 429
consumes the attempt and retries; a success with the expected payload returns
it; a success lacking the payload returns `onMalformed` at once; a request
exception retries unless this was the last attempt, in which case it returns
`onFinalError`.  Falling off the end of the loop (all attempts consumed by
429s) is Python's implicit `return None`.  The second component counts the
HTTP attempts performed. -/
def fetchLoop {β : Type} (onMalformed onFinalError : Option β)
    (trace : Nat → Outcome β) : List Nat → Option β × Nat
  | [] => (none, 0)
  | i :: rest =>
    match trace i with
    | Outcome.rate429 =>
      let r := fetchLoop onMalformed onFinalError trace rest
      (r.1, r.2 + 1)
    | Outcome.ok none => (onMalformed, 1)
    | Outcome.ok (some b) => (some b, 1)
    | Outcome.netError =>
      if rest = [] then (onFinalError, 1)
      else
        let r := fetchLoop onMalformed onFinalError trace rest
        (r.1, r.2 + 1)

/-- `get_owned_games`: on a malformed body it returns `[]`, on the final
request exception it returns `[]`. -/
def get_owned_games (trace : Nat → Outcome (List Game)) :
    Option (List Game) × Nat :=
  fetchLoop (some []) (some []) trace [0, 1, 2]

/-- `get_player_summary`: on a malformed body (or empty `players` array) it
returns `None`, on the final request exception it returns `None`. -/
def get_player_summary (trace : Nat → Outcome Player) :
    Option Player × Nat :=
  fetchLoop none none trace [0, 1, 2]

/-- The scenario game "A" from the spec. -/
def gameA : Game :=
  { appid := some 10, name := some "A", playtime_forever := some 120 }

/-- The scenario game "B" from the spec. -/
def gameB : Game :=
  { appid := some 20, name := some "B", playtime_forever := some 0 }

/-- The spec's scenario input list. -/
def demoGames : List Game :=
  [gameA, gameB]

/-- A record lacking the `playtime_forever` key. -/
def gameC : Game :=
  { appid := some 99, name := some "C", playtime_forever := none }

/-! ### Helper lemmas about the sort and the partition -/

/-- The sort key comparison is transitive. -/
theorem ptLE_trans (a b c : Game) :
    decide (b.playtime ≤ a.playtime) → decide (c.playtime ≤ b.playtime) →
      decide (c.playtime ≤ a.playtime) := by
  simp only [decide_eq_true_eq]
  exact fun h h' => le_trans h' h

/-- The sort key comparison is total. -/
theorem ptLE_total (a b : Game) :
    (decide (b.playtime ≤ a.playtime) || decide (a.playtime ≤ b.playtime)) = true := by
  simp only [Bool.or_eq_true, decide_eq_true_eq]
  exact le_total b.playtime a.playtime

theorem sortGames_perm (l : List Game) : List.Perm (sortGames l) l :=
  List.mergeSort_perm l _

theorem sortGames_sorted (l : List Game) :
    (sortGames l).Pairwise (fun a b => b.playtime ≤ a.playtime) := by
  have h := List.sorted_mergeSort ptLE_trans ptLE_total l
  exact h.imp (by simp)

theorem sortGames_filter_eq (l : List Game) (q : Int) :
    (sortGames l).filter (fun g => decide (g.playtime = q)) =
      l.filter (fun g => decide (g.playtime = q)) := by
  have hsub : List.Sublist (l.filter (fun g => decide (g.playtime = q))) (sortGames l) := by
    apply List.sublist_mergeSort ptLE_trans ptLE_total
    · apply List.pairwise_of_forall_mem_list
      intro a ha b hb
      have ha' := (List.mem_filter.mp ha).2
      have hb' := (List.mem_filter.mp hb).2
      simp only [decide_eq_true_eq] at ha' hb' ⊢
      rw [ha', hb']
    · exact List.filter_sublist l
  have hsub2 : List.Sublist (l.filter (fun g => decide (g.playtime = q)))
      ((sortGames l).filter (fun g => decide (g.playtime = q))) := by
    have h := hsub.filter (fun g => decide (g.playtime = q))
    simpa [List.filter_filter] using h
  have hperm := (sortGames_perm l).filter (fun g => decide (g.playtime = q))
  exact (hsub2.eq_of_length hperm.length_eq.symm).symm

theorem sortGames_map_sum (l : List Game) :
    ((sortGames l).map Game.playtime).sum = (l.map Game.playtime).sum :=
  ((sortGames_perm l).map Game.playtime).sum_eq

theorem filter_pos_zero_length (l : List Game) (h : ∀ g ∈ l, 0 ≤ g.playtime) :
    (l.filter (fun g => decide (0 < g.playtime))).length +
      (l.filter (fun g => decide (g.playtime = 0))).length = l.length := by
  induction l with
  | nil => simp
  | cons x t ih =>
    have hx := h x (List.mem_cons_self x t)
    have ht : ∀ g ∈ t, 0 ≤ g.playtime := fun g hg => h g (List.mem_cons_of_mem _ hg)
    have iht := ih ht
    by_cases hpos : 0 < x.playtime
    · have hne : ¬ x.playtime = 0 := by omega
      rw [List.filter_cons, List.filter_cons, if_pos (by simpa using hpos),
        if_neg (by simpa using hne)]
      simp only [List.length_cons]
      omega
    · have hzero : x.playtime = 0 := by omega
      rw [List.filter_cons, List.filter_cons, if_neg (by simpa using hpos),
        if_pos (by simpa using hzero)]
      simp only [List.length_cons]
      omega

theorem filter_pos_append_zero_perm (l : List Game)
    (h : ∀ g ∈ l, 0 ≤ g.playtime) :
    List.Perm
      (l.filter (fun g => decide (0 < g.playtime)) ++
        l.filter (fun g => decide (g.playtime = 0))) l := by
  induction l with
  | nil => simp
  | cons x t ih =>
    have hx := h x (List.mem_cons_self x t)
    have ht : ∀ g ∈ t, 0 ≤ g.playtime := fun g hg => h g (List.mem_cons_of_mem _ hg)
    by_cases hpos : 0 < x.playtime
    · have hne : ¬ x.playtime = 0 := by omega
      rw [List.filter_cons, List.filter_cons, if_pos (by simpa using hpos),
        if_neg (by simpa using hne), List.cons_append]
      exact (ih ht).cons x
    · have hzero : x.playtime = 0 := by omega
      rw [List.filter_cons, List.filter_cons, if_neg (by simpa using hpos),
        if_pos (by simpa using hzero)]
      exact List.perm_middle.trans ((ih ht).cons x)

theorem filter_pos_take (s : List Game)
    (hs : s.Pairwise (fun a b => b.playtime ≤ a.playtime))
    (hnn : ∀ g ∈ s, 0 ≤ g.playtime) (n : Nat) :
    (s.take n).filter (fun g => decide (0 < g.playtime)) =
      s.take (min n (s.countP (fun g => decide (0 < g.playtime)))) := by
  induction s generalizing n with
  | nil => simp
  | cons x t ih =>
    rcases List.pairwise_cons.mp hs with ⟨hxt, ht⟩
    have hx := hnn x (List.mem_cons_self x t)
    have htn : ∀ g ∈ t, 0 ≤ g.playtime := fun g hg => hnn g (List.mem_cons_of_mem _ hg)
    by_cases hpos : 0 < x.playtime
    · cases n with
      | zero => simp
      | succ m =>
        rw [List.take_succ_cons, List.filter_cons, if_pos (by simpa using hpos),
          List.countP_cons, if_pos (by simpa using hpos)]
        have hmin : min (m + 1) (t.countP (fun g => decide (0 < g.playtime)) + 1) =
            min m (t.countP (fun g => decide (0 < g.playtime))) + 1 := by
          omega
        rw [hmin, List.take_succ_cons, ih ht htn m]
    · have hallz : ∀ g ∈ x :: t, ¬ 0 < g.playtime := by
        intro g hg
        rcases List.mem_cons.mp hg with rfl | hg'
        · exact hpos
        · have h1 := hxt g hg'
          have h2 := htn g hg'
          omega
      have hcount : (x :: t).countP (fun g => decide (0 < g.playtime)) = 0 := by
        rw [List.countP_eq_zero]
        intro g hg
        simpa using hallz g hg
      rw [hcount]
      simp only [Nat.min_zero, List.take_zero]
      rw [List.filter_eq_nil_iff]
      intro a ha
      have ham : a ∈ x :: t := List.mem_of_mem_take ha
      simpa using hallz a ham

/-! ### Helper lemmas about the retry loop -/

theorem fetchLoop_attempts_le {β : Type} (a b : Option β)
    (trace : Nat → Outcome β) (idxs : List Nat) :
    (fetchLoop a b trace idxs).2 ≤ idxs.length := by
  induction idxs with
  | nil => simp [fetchLoop]
  | cons i rest ih =>
    cases htr : trace i with
    | rate429 =>
      simp only [fetchLoop, htr, List.length_cons]
      omega
    | netError =>
      by_cases hr : rest = []
      · simp [fetchLoop, htr, hr]
      · simp only [fetchLoop, htr, if_neg hr, List.length_cons]
        omega
    | ok body =>
      cases body <;> simp [fetchLoop, htr]

/-! ### Claim theorems: the fetch layer -/

/-- C2, counterexample: when all three attempts receive HTTP 429,
`get_owned_games` makes 3 attempts and then falls off the retry loop,
returning Python `None` rather than the empty list the claim asserts. -/
theorem retry_exhaustion_counterexample :
    (get_owned_games (fun _ => Outcome.rate429)).2 = 3 ∧
    (get_owned_games (fun _ => Outcome.rate429)).1 = none ∧
    (get_owned_games (fun _ => Outcome.rate429)).1 ≠ some [] := by
  refine ⟨by decide, by decide, by decide⟩

/-- C2 (amended): each fetch makes at most 3 HTTP attempts; when every
attempt fails (any combination of HTTP 429 and request exceptions) exactly 3
attempts are made, `get_player_summary` returns the absent value, and
`get_owned_games` returns the empty list if the final attempt raised a
request exception but the absent value `None` if the final attempt received
HTTP 429. -/
theorem retry_bound (otrace : Nat → Outcome (List Game))
    (ptrace : Nat → Outcome Player) :
    (get_owned_games otrace).2 ≤ 3 ∧ (get_player_summary ptrace).2 ≤ 3 ∧
    ((∀ i, i < 3 → otrace i = Outcome.rate429 ∨ otrace i = Outcome.netError) →
      (get_owned_games otrace).2 = 3 ∧
      (get_owned_games otrace).1 =
        (if otrace 2 = Outcome.netError then some [] else none)) ∧
    ((∀ i, i < 3 → ptrace i = Outcome.rate429 ∨ ptrace i = Outcome.netError) →
      (get_player_summary ptrace).2 = 3 ∧
      (get_player_summary ptrace).1 = none) := by
  refine ⟨fetchLoop_attempts_le _ _ _ _, fetchLoop_attempts_le _ _ _ _, ?_, ?_⟩
  · intro ho
    rcases ho 0 (by omega) with h0 | h0 <;>
      rcases ho 1 (by omega) with h1 | h1 <;>
        rcases ho 2 (by omega) with h2 | h2 <;>
          simp [get_owned_games, fetchLoop, h0, h1, h2]
  · intro hp
    rcases hp 0 (by omega) with h0 | h0 <;>
      rcases hp 1 (by omega) with h1 | h1 <;>
        rcases hp 2 (by omega) with h2 | h2 <;>
          simp [get_player_summary, fetchLoop, h0, h1, h2]

/-- C2 witness: a run where every owned-games attempt raises a request
exception and every player-summary attempt receives HTTP 429. -/
theorem retry_bound_witness :
    (∀ i, i < 3 → (fun _ => Outcome.netError : Nat → Outcome (List Game)) i =
        Outcome.rate429 ∨
      (fun _ => Outcome.netError : Nat → Outcome (List Game)) i =
        Outcome.netError) ∧
    ((get_owned_games (fun _ => Outcome.netError)).2 ≤ 3 ∧
      (get_player_summary (fun _ => Outcome.rate429)).2 ≤ 3 ∧
      ((∀ i, i < 3 → (fun _ => Outcome.netError : Nat → Outcome (List Game)) i =
          Outcome.rate429 ∨
        (fun _ => Outcome.netError : Nat → Outcome (List Game)) i =
          Outcome.netError) →
        (get_owned_games (fun _ => Outcome.netError)).2 = 3 ∧
        (get_owned_games (fun _ => Outcome.netError)).1 =
          (if (fun _ => Outcome.netError : Nat → Outcome (List Game)) 2 =
              Outcome.netError then some [] else none)) ∧
      ((∀ i, i < 3 → (fun _ => Outcome.rate429 : Nat → Outcome Player) i =
          Outcome.rate429 ∨
        (fun _ => Outcome.rate429 : Nat → Outcome Player) i =
          Outcome.netError) →
        (get_player_summary (fun _ => Outcome.rate429)).2 = 3 ∧
        (get_player_summary (fun _ => Outcome.rate429)).1 = none)) :=
  ⟨fun _ _ => Or.inr rfl,
    retry_bound (fun _ => Outcome.netError) (fun _ => Outcome.rate429)⟩

/-- C6: a successfully received owned-games response whose JSON body lacks
the nested `response`/`games` payload makes `get_owned_games` return the
empty list at once, with no further attempt consumed: if the attempts before
`k` all failed retryably and attempt `k` receives a malformed body, the call
returns `[]` having made exactly `k + 1` attempts. -/
theorem malformed_immediate (trace : Nat → Outcome (List Game)) (k : Nat)
    (hk : k < 3)
    (hpre : ∀ i, i < k → trace i = Outcome.rate429 ∨ trace i = Outcome.netError)
    (hmal : trace k = Outcome.ok none) :
    get_owned_games trace = (some [], k + 1) := by
  interval_cases k
  · simp [get_owned_games, fetchLoop, hmal]
  · rcases hpre 0 (by omega) with h0 | h0 <;>
      simp [get_owned_games, fetchLoop, h0, hmal]
  · rcases hpre 0 (by omega) with h0 | h0 <;>
      rcases hpre 1 (by omega) with h1 | h1 <;>
        simp [get_owned_games, fetchLoop, h0, h1, hmal]

/-- C6 witness: a malformed body on the very first attempt. -/
theorem malformed_immediate_witness :
    0 < 3 ∧
    get_owned_games (fun _ => Outcome.ok none) = (some [], 0 + 1) :=
  ⟨by decide,
    malformed_immediate (fun _ => Outcome.ok none) 0 (by decide)
      (fun i hi => absurd hi (by omega)) rfl⟩

/-- C9: whenever the owned-games fetch yields a falsy value — Python `None`
or the empty list, the latter including a successful fetch of a zero-game
account — `generate_markdown_report` returns early and writes no file, and
the two cases produce identical (absent) output. -/
theorem empty_games_no_output (trace : Nat → Outcome (List Game))
    (p q : Option Player) :
    ((get_owned_games trace).1 = none ∨ (get_owned_games trace).1 = some [] →
      generate_markdown_report (get_owned_games trace).1 p = none) ∧
    generate_markdown_report none p = generate_markdown_report (some []) q := by
  constructor
  · rintro (h | h) <;> rw [h] <;> rfl
  · rfl

/-- C9 witness: a successful fetch of an account owning zero games. -/
theorem empty_games_no_output_witness :
    (get_owned_games (fun _ => Outcome.ok (some ([] : List Game)))).1 =
      some [] ∧
    generate_markdown_report
      (get_owned_games (fun _ => Outcome.ok (some ([] : List Game)))).1
      none = none :=
  ⟨by decide,
    (empty_games_no_output (fun _ => Outcome.ok (some [])) none none).1
      (Or.inr (by decide))⟩

/-- C8: once the owned-games fetch returns a nonempty list, the pipeline
generates the report for every outcome of the player-summary fetch, and the
player-identity lines are present in the report exactly when the player
summary is present. -/
theorem pipeline_continues (gs : List Game) (hne : gs ≠ [])
    (ptrace : Nat → Outcome Player) (p : Option Player) :
    generate_markdown_report (some gs) (get_player_summary ptrace).1 =
      some (buildReport gs (get_player_summary ptrace).1) ∧
    ((buildReport gs p).playerName.isSome ↔ p.isSome) := by
  constructor
  · cases gs with
    | nil => exact absurd rfl hne
    | cons g t => rfl
  · cases p <;> simp [buildReport]

/-- C8 witness: the scenario games with a failing player-summary fetch. -/
theorem pipeline_continues_witness :
    demoGames ≠ [] ∧
    (generate_markdown_report (some demoGames)
        (get_player_summary (fun _ => Outcome.netError)).1 =
      some (buildReport demoGames
        (get_player_summary (fun _ => Outcome.netError)).1) ∧
    ((buildReport demoGames
        (some { personaname := some "X" })).playerName.isSome ↔
      (some ({ personaname := some "X" } : Player)).isSome)) :=
  ⟨by decide,
    pipeline_continues demoGames (by decide) (fun _ => Outcome.netError)
      (some { personaname := some "X" })⟩

/-! ### Projection lemmas for the report -/

theorem buildReport_playedGames (l : List Game) (p : Option Player) :
    (buildReport l p).playedGames =
      (sortGames l).filter (fun g => decide (0 < g.playtime)) := rfl

theorem buildReport_unplayedGames (l : List Game) (p : Option Player) :
    (buildReport l p).unplayedGames =
      (sortGames l).filter (fun g => decide (g.playtime = 0)) := rfl

theorem buildReport_totalMinutes (l : List Game) (p : Option Player) :
    (buildReport l p).totalMinutes = ((sortGames l).map Game.playtime).sum := rfl

theorem buildReport_avg (l : List Game) (p : Option Player) :
    (buildReport l p).avg =
      (if ((sortGames l).filter (fun g => decide (0 < g.playtime))).length = 0
       then none
       else some ((((sortGames l).map Game.playtime).sum : ℚ) /
         (((sortGames l).filter (fun g => decide (0 < g.playtime))).length : ℚ))) :=
  rfl

theorem buildReport_topSection (l : List Game) (p : Option Player) :
    (buildReport l p).topSection =
      (match (sortGames l).take 10 with
       | [] => none
       | g :: _ =>
         if 0 < g.playtime
         then some (((sortGames l).take 10).filter
           (fun h => decide (0 < h.playtime)))
         else none) := rfl

/-- On a nonempty sorted list the top-10 section is decided by the head. -/
theorem topSection_eq (l : List Game) (p : Option Player) (g : Game)
    (t : List Game) (hgt : sortGames l = g :: t) :
    (buildReport l p).topSection =
      (if 0 < g.playtime
       then some (((sortGames l).take 10).filter
         (fun h => decide (0 < h.playtime)))
       else none) := by
  rw [buildReport_topSection, hgt, show (10 : Nat) = 9 + 1 from rfl,
    List.take_succ_cons]

/-! ### Claim theorems: the reporter -/

/-- C4: for every game list of nonnegative playtimes the report partitions it
strictly: the played and unplayed counts sum to the total, every played game
has positive playtime, every unplayed game has zero playtime, and the two
parts together are a permutation of the input. -/
theorem partition_spec (l : List Game) (p : Option Player)
    (h : ∀ g ∈ l, 0 ≤ g.playtime) :
    (buildReport l p).playedGames.length +
      (buildReport l p).unplayedGames.length = l.length ∧
    (∀ g ∈ (buildReport l p).playedGames, 0 < g.playtime) ∧
    (∀ g ∈ (buildReport l p).unplayedGames, g.playtime = 0) ∧
    List.Perm ((buildReport l p).playedGames ++ (buildReport l p).unplayedGames)
      l := by
  have hs : ∀ g ∈ sortGames l, 0 ≤ g.playtime := fun g hg =>
    h g ((sortGames_perm l).mem_iff.mp hg)
  refine ⟨?_, ?_, ?_, ?_⟩
  · rw [buildReport_playedGames, buildReport_unplayedGames,
      ← (sortGames_perm l).length_eq]
    exact filter_pos_zero_length (sortGames l) hs
  · intro g hg
    rw [buildReport_playedGames] at hg
    simpa using (List.mem_filter.mp hg).2
  · intro g hg
    rw [buildReport_unplayedGames] at hg
    simpa using (List.mem_filter.mp hg).2
  · rw [buildReport_playedGames, buildReport_unplayedGames]
    exact (filter_pos_append_zero_perm (sortGames l) hs).trans (sortGames_perm l)

/-- C4 witness: the scenario games. -/
theorem partition_spec_witness :
    (∀ g ∈ demoGames, 0 ≤ g.playtime) ∧
    ((buildReport demoGames none).playedGames.length +
      (buildReport demoGames none).unplayedGames.length = demoGames.length ∧
    (∀ g ∈ (buildReport demoGames none).playedGames, 0 < g.playtime) ∧
    (∀ g ∈ (buildReport demoGames none).unplayedGames, g.playtime = 0) ∧
    List.Perm ((buildReport demoGames none).playedGames ++
      (buildReport demoGames none).unplayedGames) demoGames) :=
  ⟨by decide, partition_spec demoGames none (by decide)⟩

/-- C5: the ordering used throughout the report is non-increasing in
playtime: the sorted list is a permutation of the input, is pairwise
non-increasing, ties keep their original relative order (the sublist at any
fixed playtime is unchanged), and the played table, unplayed table and
ranking entries inherit the non-increasing order. -/
theorem report_ordering (l : List Game) (p : Option Player) :
    (sortGames l).Pairwise (fun a b => b.playtime ≤ a.playtime) ∧
    List.Perm (sortGames l) l ∧
    (∀ q : Int, (sortGames l).filter (fun g => decide (g.playtime = q)) =
      l.filter (fun g => decide (g.playtime = q))) ∧
    (buildReport l p).playedGames.Pairwise
      (fun a b => b.playtime ≤ a.playtime) ∧
    (buildReport l p).unplayedGames.Pairwise
      (fun a b => b.playtime ≤ a.playtime) ∧
    (∀ es, (buildReport l p).topSection = some es →
      es.Pairwise (fun a b => b.playtime ≤ a.playtime)) := by
  have hsorted := sortGames_sorted l
  refine ⟨hsorted, sortGames_perm l, sortGames_filter_eq l, ?_, ?_, ?_⟩
  · rw [buildReport_playedGames]
    exact List.Pairwise.sublist (List.filter_sublist _) hsorted
  · rw [buildReport_unplayedGames]
    exact List.Pairwise.sublist (List.filter_sublist _) hsorted
  · intro es hes
    rw [buildReport_topSection] at hes
    split at hes
    · exact absurd hes (by simp)
    · split at hes
      · cases hes
        exact List.Pairwise.sublist
          ((List.filter_sublist _).trans (List.take_sublist 10 (sortGames l)))
          hsorted
      · exact absurd hes (by simp)

/-- C5 witness: the scenario games. -/
theorem report_ordering_witness :
    (sortGames demoGames).Pairwise (fun a b => b.playtime ≤ a.playtime) ∧
    List.Perm (sortGames demoGames) demoGames ∧
    (∀ q : Int, (sortGames demoGames).filter
        (fun g => decide (g.playtime = q)) =
      demoGames.filter (fun g => decide (g.playtime = q))) ∧
    (buildReport demoGames none).playedGames.Pairwise
      (fun a b => b.playtime ≤ a.playtime) ∧
    (buildReport demoGames none).unplayedGames.Pairwise
      (fun a b => b.playtime ≤ a.playtime) ∧
    (∀ es, (buildReport demoGames none).topSection = some es →
      es.Pairwise (fun a b => b.playtime ≤ a.playtime)) :=
  report_ordering demoGames none

/-- C10: a game record lacking the `playtime_forever` key is treated as
playtime 0 everywhere: its sort key is 0, it contributes nothing to the
total-minutes sum, it never lands in the played table, and it lands in the
unplayed table. -/
theorem missing_playtime_key (g : Game) (l : List Game) (p : Option Player)
    (h : g.playtime_forever = none) :
    g.playtime = 0 ∧
    (buildReport (g :: l) p).totalMinutes = (buildReport l p).totalMinutes ∧
    g ∉ (buildReport (g :: l) p).playedGames ∧
    g ∈ (buildReport (g :: l) p).unplayedGames := by
  have hz : g.playtime = 0 := by simp [Game.playtime, h]
  refine ⟨hz, ?_, ?_, ?_⟩
  · rw [buildReport_totalMinutes, buildReport_totalMinutes,
      sortGames_map_sum, sortGames_map_sum]
    simp [hz]
  · rw [buildReport_playedGames]
    intro hmem
    have := (List.mem_filter.mp hmem).2
    rw [hz] at this
    simp at this
  · rw [buildReport_unplayedGames]
    refine List.mem_filter.mpr ⟨?_, by simp [hz]⟩
    exact (sortGames_perm (g :: l)).mem_iff.mpr (List.mem_cons_self g l)

/-- C10 witness: a keyless record prepended to the empty library. -/
theorem missing_playtime_key_witness :
    gameC.playtime_forever = none ∧
    (gameC.playtime = 0 ∧
    (buildReport (gameC :: []) none).totalMinutes =
      (buildReport ([] : List Game) none).totalMinutes ∧
    gameC ∉ (buildReport (gameC :: []) none).playedGames ∧
    gameC ∈ (buildReport (gameC :: []) none).unplayedGames) :=
  ⟨rfl, missing_playtime_key gameC [] none rfl⟩

/-- C1, counterexample: on the scenario input (one played game, one
unplayed) the ranking section is emitted, yet it contains a single entry
rather than `min(10, number of games) = 2` entries, because the
zero-playtime game inside the top 10 is skipped by the rendering loop. -/
theorem top10_count_counterexample :
    0 < gameA.playtime ∧ gameA ∈ demoGames ∧
    (buildReport demoGames none).topSection = some [gameA] ∧
    min 10 demoGames.length = 2 := by
  have hsort : sortGames demoGames = demoGames :=
    List.mergeSort_of_sorted (by decide)
  refine ⟨by decide, by decide, ?_, by decide⟩
  rw [topSection_eq demoGames none gameA [gameB] (hsort.trans rfl), hsort]
  decide

/-- C1 (amended): for a nonempty fetched list of nonnegative playtimes the
report omits the ranking section exactly when every game has playtime 0;
otherwise the section contains exactly `min(10, number of games with
positive playtime)` entries, namely the initial segment of that length of
the descending-sorted list — the games with the highest playtimes. -/
theorem top10_section (gs : List Game) (p : Option Player) (hne : gs ≠ [])
    (hnn : ∀ g ∈ gs, 0 ≤ g.playtime) :
    ((buildReport gs p).topSection = none ↔ ∀ g ∈ gs, g.playtime = 0) ∧
    (∀ es, (buildReport gs p).topSection = some es →
      es = (sortGames gs).take
        (min 10 (gs.countP (fun g => decide (0 < g.playtime)))) ∧
      es.length = min 10 (gs.countP (fun g => decide (0 < g.playtime)))) := by
  have hperm := sortGames_perm gs
  have hsorted := sortGames_sorted gs
  have hs : ∀ g ∈ sortGames gs, 0 ≤ g.playtime := fun g hg =>
    hnn g (hperm.mem_iff.mp hg)
  obtain ⟨g, t, hgt⟩ : ∃ g t, sortGames gs = g :: t := by
    cases hsg : sortGames gs with
    | nil =>
      exfalso
      apply hne
      have h0 := hperm
      rw [hsg] at h0
      exact h0.symm.eq_nil
    | cons g t => exact ⟨g, t, rfl⟩
  have hg_mem : g ∈ sortGames gs := by
    rw [hgt]
    exact List.mem_cons_self g t
  have hg_nn : 0 ≤ g.playtime := hs g hg_mem
  have hmax : ∀ b ∈ t, b.playtime ≤ g.playtime := by
    have h1 := hsorted
    rw [hgt] at h1
    exact (List.pairwise_cons.mp h1).1
  rw [topSection_eq gs p g t hgt]
  constructor
  · constructor
    · intro hnone b hb
      by_cases hgp : 0 < g.playtime
      · rw [if_pos hgp] at hnone
        exact absurd hnone (by simp)
      · have hbs : b ∈ sortGames gs := hperm.mem_iff.mpr hb
        rw [hgt] at hbs
        rcases List.mem_cons.mp hbs with rfl | hbt
        · omega
        · have h1 := hmax b hbt
          have h2 := hnn b hb
          omega
    · intro hall
      have hgz : g.playtime = 0 := hall g (hperm.mem_iff.mp hg_mem)
      rw [if_neg (by omega)]
  · intro es hes
    by_cases hgp : 0 < g.playtime
    · rw [if_pos hgp] at hes
      have hes' : es =
          ((sortGames gs).take 10).filter (fun h => decide (0 < h.playtime)) := by
        cases hes
        rfl
      have hcnt : (sortGames gs).countP (fun g => decide (0 < g.playtime)) =
          gs.countP (fun g => decide (0 < g.playtime)) := hperm.countP_eq _
      have htake := filter_pos_take (sortGames gs) hsorted hs 10
      have hle : gs.countP (fun g => decide (0 < g.playtime)) ≤
          (sortGames gs).length := by
        rw [← hcnt]
        exact List.countP_le_length _
      constructor
      · rw [hes', htake, hcnt]
      · rw [hes', htake, hcnt, List.length_take]
        omega
    · rw [if_neg hgp] at hes
      exact absurd hes (by simp)

/-- C1 witness: the scenario games instantiate the amended claim. -/
theorem top10_section_witness :
    demoGames ≠ [] ∧ (∀ g ∈ demoGames, 0 ≤ g.playtime) ∧
    (((buildReport demoGames none).topSection = none ↔
        ∀ g ∈ demoGames, g.playtime = 0) ∧
    (∀ es, (buildReport demoGames none).topSection = some es →
      es = (sortGames demoGames).take
        (min 10 (demoGames.countP (fun g => decide (0 < g.playtime)))) ∧
      es.length =
        min 10 (demoGames.countP (fun g => decide (0 < g.playtime))))) :=
  ⟨by decide, by decide, top10_section demoGames none (by decide) (by decide)⟩

/-- C7: the report carries an average exactly when some game has positive
playtime, and the average is total minutes over the number of played games;
on the scenario input the report has total 120, played `[A]`, unplayed
`[B]`, and average 120, displayed as the 2-hours label. -/
theorem average_spec (l : List Game) (p : Option Player) :
    ((buildReport l p).avg.isSome ↔ ∃ g ∈ l, 0 < g.playtime) ∧
    (buildReport l p).avg =
      (if l.countP (fun g => decide (0 < g.playtime)) = 0 then none
       else some (((l.map Game.playtime).sum : ℚ) /
         (l.countP (fun g => decide (0 < g.playtime)) : ℚ))) ∧
    (buildReport demoGames none).totalMinutes = 120 ∧
    (buildReport demoGames none).playedGames = [gameA] ∧
    (buildReport demoGames none).unplayedGames = [gameB] ∧
    (buildReport demoGames none).avg = some 120 ∧
    minutes_to_hours 120 = TimeDisplay.wholeHours 2 := by
  have hlen : ((sortGames l).filter (fun g => decide (0 < g.playtime))).length =
      l.countP (fun g => decide (0 < g.playtime)) := by
    rw [← List.countP_eq_length_filter]
    exact (sortGames_perm l).countP_eq _
  have hsort : sortGames demoGames = demoGames :=
    List.mergeSort_of_sorted (by decide)
  refine ⟨?_, ?_, ?_, ?_, ?_, ?_, ?_⟩
  · rw [buildReport_avg, hlen]
    by_cases hc : l.countP (fun g => decide (0 < g.playtime)) = 0
    · rw [if_pos hc]
      simp only [Option.isSome_none, Bool.false_eq_true, false_iff]
      intro hex
      obtain ⟨g, hgl, hgp⟩ := hex
      have h1 := List.countP_eq_zero.mp hc g hgl
      simp only [decide_eq_true_eq] at h1
      omega
    · rw [if_neg hc]
      simp only [Option.isSome_some, true_iff]
      have h1 : 0 < l.countP (fun g => decide (0 < g.playtime)) :=
        Nat.pos_of_ne_zero hc
      rw [List.countP_pos_iff] at h1
      obtain ⟨g, hgl, hgp⟩ := h1
      exact ⟨g, hgl, by simpa using hgp⟩
  · rw [buildReport_avg, hlen, sortGames_map_sum]
  · rw [buildReport_totalMinutes, hsort]
    decide
  · rw [buildReport_playedGames, hsort]
    decide
  · rw [buildReport_unplayedGames, hsort]
    decide
  · rw [buildReport_avg, hsort]
    have h1 : (demoGames.filter (fun g => decide (0 < g.playtime))).length = 1 := by
      decide
    have h2 : (demoGames.map Game.playtime).sum = 120 := by decide
    rw [h1, h2]
    norm_num
  · norm_num [minutes_to_hours, pyInt]

/-! ### Helper lemmas for the minute display -/

theorem mth_zero : minutes_to_hours 0 = TimeDisplay.zeroHours := by
  simp [minutes_to_hours]

theorem mth_minutes (m : ℤ) (h1 : 0 < m) (h2 : m < 60) :
    minutes_to_hours (m : ℚ) = TimeDisplay.minutesLabel (m : ℚ) := by
  have h0 : (m : ℚ) ≠ 0 := Int.cast_ne_zero.mpr (by omega)
  have hlt : (m : ℚ) / 60 < 1 := by
    rw [div_lt_one (by norm_num : (0:ℚ) < 60)]
    exact_mod_cast h2
  simp only [minutes_to_hours]
  rw [if_neg h0, if_pos hlt]

theorem pyInt_intCast (n : ℤ) : pyInt (n : ℚ) = n := by
  simp [pyInt, Rat.num_intCast, Rat.den_intCast]

theorem mth_whole (m : ℤ) (h1 : 0 < m) (h2 : (60:ℤ) ∣ m) :
    minutes_to_hours (m : ℚ) = TimeDisplay.wholeHours (m / 60) := by
  obtain ⟨k, rfl⟩ := h2
  have hk1 : 1 ≤ k := by omega
  have hne : ((60 * k : ℤ) : ℚ) ≠ 0 := Int.cast_ne_zero.mpr (by omega)
  have hq : ((60 * k : ℤ) : ℚ) / 60 = (k : ℚ) := by
    push_cast
    rw [mul_comm]
    exact mul_div_cancel_right₀ (k:ℚ) (by norm_num)
  simp only [minutes_to_hours]
  rw [hq, if_neg hne,
    if_neg (not_lt.mpr (by exact_mod_cast hk1 : (1:ℚ) ≤ (k:ℚ))),
    pyInt_intCast, if_pos rfl, Int.mul_ediv_cancel_left k (by norm_num)]

theorem mth_decimal (m : ℤ) (h1 : 60 ≤ m) (h2 : ¬ (60:ℤ) ∣ m) :
    minutes_to_hours (m : ℚ) =
      TimeDisplay.decimalHours (roundHalfEven (10 * ((m : ℚ) / 60))) := by
  have hne : (m : ℚ) ≠ 0 := Int.cast_ne_zero.mpr (by omega)
  have hge : (1:ℚ) ≤ (m:ℚ) / 60 := by
    rw [one_le_div (by norm_num : (0:ℚ) < 60)]
    exact_mod_cast h1
  have hint : ¬ ((m:ℚ) / 60 = (pyInt ((m:ℚ) / 60) : ℚ)) := by
    intro hq
    apply h2
    rw [div_eq_iff (by norm_num : (60:ℚ) ≠ 0)] at hq
    have hmq : m = pyInt ((m:ℚ) / 60) * 60 := by exact_mod_cast hq
    exact ⟨pyInt ((m:ℚ) / 60), by omega⟩
  simp only [minutes_to_hours]
  rw [if_neg hne, if_neg (not_lt.mpr hge), if_neg hint]

theorem roundHalfEven_intCast (n : ℤ) : roundHalfEven (n : ℚ) = n := by
  norm_num [roundHalfEven, Int.fract_intCast, Int.floor_intCast]

/-- C3: for nonnegative minute counts the display has four regimes — the
0-hours sentinel at 0, a minutes label below 60, a whole-hours label at
exact multiples of 60, otherwise hours with one decimal digit — with the
spec's four sample points evaluated. -/
theorem minutes_display_spec (m : ℤ) (hm : 0 ≤ m) :
    (m = 0 → minutes_to_hours (m : ℚ) = TimeDisplay.zeroHours) ∧
    (0 < m → m < 60 →
      minutes_to_hours (m : ℚ) = TimeDisplay.minutesLabel (m : ℚ)) ∧
    (0 < m → (60:ℤ) ∣ m →
      minutes_to_hours (m : ℚ) = TimeDisplay.wholeHours (m / 60)) ∧
    (60 ≤ m → ¬ (60:ℤ) ∣ m → minutes_to_hours (m : ℚ) =
      TimeDisplay.decimalHours (roundHalfEven (10 * ((m : ℚ) / 60)))) ∧
    minutes_to_hours 0 = TimeDisplay.zeroHours ∧
    minutes_to_hours 45 = TimeDisplay.minutesLabel 45 ∧
    minutes_to_hours 120 = TimeDisplay.wholeHours 2 ∧
    minutes_to_hours 90 = TimeDisplay.decimalHours 15 := by
  refine ⟨?_, fun a b => mth_minutes m a b, fun a b => mth_whole m a b,
    fun a b => mth_decimal m a b, mth_zero, ?_, ?_, ?_⟩
  · intro h
    subst h
    simpa using mth_zero
  · have h := mth_minutes 45 (by norm_num) (by norm_num)
    simpa using h
  · have h := mth_whole 120 (by norm_num) (by norm_num)
    norm_num at h
    simpa using h
  · have h := mth_decimal 90 (by norm_num) (by norm_num)
    have h15 : (10:ℚ) * (((90:ℤ):ℚ) / 60) = ((15:ℤ):ℚ) := by
      push_cast
      norm_num
    rw [h15, roundHalfEven_intCast] at h
    simpa using h

/-- C3 witness: the four regimes instantiated at 90 minutes. -/
theorem minutes_display_spec_witness :
    (0:ℤ) ≤ 90 ∧
    (((90:ℤ) = 0 → minutes_to_hours ((90:ℤ) : ℚ) = TimeDisplay.zeroHours) ∧
    (0 < (90:ℤ) → (90:ℤ) < 60 →
      minutes_to_hours ((90:ℤ) : ℚ) =
        TimeDisplay.minutesLabel ((90:ℤ) : ℚ)) ∧
    (0 < (90:ℤ) → (60:ℤ) ∣ (90:ℤ) →
      minutes_to_hours ((90:ℤ) : ℚ) =
        TimeDisplay.wholeHours ((90:ℤ) / 60)) ∧
    (60 ≤ (90:ℤ) → ¬ (60:ℤ) ∣ (90:ℤ) → minutes_to_hours ((90:ℤ) : ℚ) =
      TimeDisplay.decimalHours (roundHalfEven (10 * (((90:ℤ) : ℚ) / 60)))) ∧
    minutes_to_hours 0 = TimeDisplay.zeroHours ∧
    minutes_to_hours 45 = TimeDisplay.minutesLabel 45 ∧
    minutes_to_hours 120 = TimeDisplay.wholeHours 2 ∧
    minutes_to_hours 90 = TimeDisplay.decimalHours 15) :=
  ⟨by norm_num, minutes_display_spec 90 (by norm_num)⟩
